import Mathlib

/-!
Shallow embedding of `database_insight`, a regex-based extractor that
recovers a structured schema model (tables, columns, views, procedures,
primary/foreign keys) from a Toad "Create Schema Script" text export.

The embedding follows `src/database_insight/adapters/toad_parser.py`
(class `ToadDdlParser`) and `src/database_insight/models/schema.py`.
Documents are modelled as `List Char`; each fixed regular expression of
the source is hand-compiled into an executable matcher that reproduces
the Python `re` semantics (leftmost match, greedy/lazy quantifiers with
backtracking, `IGNORECASE`, `DOTALL`, `MULTILINE`) for that pattern.
Python dicts are modelled as association lists where the most recent
binding shadows older ones.
-/

namespace DatabaseInsight

/-- The single-quote character, written via its code point. -/
def squote : Char := Char.ofNat 39

/-- Python `\w`: ASCII letters, digits and underscore (documents are ASCII). -/
def isWordChar (c : Char) : Bool :=
  (('a' ≤ c && c ≤ 'z') || ('A' ≤ c && c ≤ 'Z') || ('0' ≤ c && c ≤ '9') || c = '_')

/-- Python `\s` on ASCII text: space, tab, newline, carriage return, form feed, vertical tab. -/
def isSpaceChar (c : Char) : Bool :=
  (c = ' ' || c = '\t' || c = '\n' || c = '\r' || c = Char.ofNat 12 || c = Char.ofNat 11)

/-- Python `\d` on ASCII text. -/
def isDigitChar (c : Char) : Bool :=
  ('0' ≤ c && c ≤ '9')

/-- Case-insensitive character comparison (`re.IGNORECASE` on ASCII). -/
def eqCI (a b : Char) : Bool := a.toLower = b.toLower

/-- Python `str.upper()` on ASCII text. -/
def pyUpper (s : List Char) : List Char := s.map Char.toUpper

/-- Python `str.strip()`: drop whitespace from both ends. -/
def pyStrip (s : List Char) : List Char :=
  ((s.dropWhile isSpaceChar).reverse.dropWhile isSpaceChar).reverse

/-- Does `pat` occur as a contiguous substring of `s` (Python `pat in s`)? -/
def isSubstr (pat s : List Char) : Bool :=
  (s.tails).any (fun t => pat.isPrefixOf t)

/-- Python `str.replace('\n', ' ')`. -/
def nlToSpace (s : List Char) : List Char :=
  s.map (fun c => if c = '\n' then ' ' else c)

/-- Helper for `pyWords`: `acc` is the current word, reversed. -/
def pyWordsAux : List Char → List Char → List (List Char)
  | [], acc => if acc.isEmpty then [] else [acc.reverse]
  | c :: rest, acc =>
    if isSpaceChar c then
      if acc.isEmpty then pyWordsAux rest [] else acc.reverse :: pyWordsAux rest []
    else pyWordsAux rest (c :: acc)

/-- Python `str.split()` : split on whitespace runs, dropping empty pieces. -/
def pyWords (s : List Char) : List (List Char) := pyWordsAux s []

/-- Python `' '.join(s.split())`: collapse all whitespace runs to single spaces. -/
def normWs (s : List Char) : List Char :=
  List.intercalate [' '] (pyWords s)

/-- Python `str.replace("''", "'")`: left-to-right, non-overlapping replacement
of each doubled single quote by a single one.  This is the comment-unescaping
step of `_parse_table_comments` / `_parse_column_comments`. -/
def unescapeComment : List Char → List Char
  | a :: b :: rest =>
    if a = squote && b = squote then squote :: unescapeComment rest
    else a :: unescapeComment (b :: rest)
  | [a] => [a]
  | [] => []

/-- Split on a comma, trim each piece, after folding newlines to spaces:
`[col.strip() for col in s.replace('\n', ' ').split(',')]`. -/
def splitColsTrim (s : List Char) : List (List Char) :=
  ((nlToSpace s).splitOn ',').map pyStrip

/-- Python `int()` on a nonempty digit string. -/
def digitsToNat (ds : List Char) : Nat :=
  ds.foldl (fun n c => 10 * n + (c.toNat - 48)) 0

/-! ### The schema model (`models/schema.py`)

`extracted_at` (a `datetime` in the source) is modelled as a `Nat` clock
value passed to `parse`, since `datetime.now()` is the only impure input. -/

structure Column where
  name : List Char
  data_type : List Char
  nullable : Bool := true
  max_length : Option Nat := none
  precision : Option Nat := none
  scale : Option Nat := none
  default_value : Option (List Char) := none
  comment : Option (List Char) := none
deriving DecidableEq, Repr

structure PrimaryKey where
  constraint_name : List Char
  columns : List (List Char)
deriving DecidableEq, Repr

structure ForeignKey where
  constraint_name : List Char
  columns : List (List Char)
  referenced_table : List Char
  referenced_columns : List (List Char)
deriving DecidableEq, Repr

structure Table where
  name : List Char
  schema_name : List Char
  columns : List Column
  row_count : Nat := 0
  comment : Option (List Char) := none
  primary_key : Option PrimaryKey := none
  foreign_keys : List ForeignKey := []
deriving DecidableEq, Repr

structure View where
  name : List Char
  schema_name : List Char
  columns : List (List Char)
  select_statement : List Char
  comment : Option (List Char) := none
deriving DecidableEq, Repr

structure ProcedureParameter where
  name : List Char
  direction : List Char
  data_type : List Char
deriving DecidableEq, Repr

structure Procedure where
  name : List Char
  package_name : List Char
  schema_name : List Char
  parameters : List ProcedureParameter
  has_refcursor_out : Bool := false
deriving DecidableEq, Repr

structure SchemaModel where
  database_type : List Char
  database_version : Option (List Char) := none
  schema_name : List Char
  extracted_at : Nat
  tables : List Table
  views : List View := []
  procedures : List Procedure := []
deriving DecidableEq, Repr

/-! ### Python dicts

A dict is an association list where the most recent binding is first;
`dget` (lookup / `.get`) returns the most recent binding, `dset`
(`d[k] = v`) prepends.  Only lookups are performed on these dicts by the
source, so shadowing is a faithful model of overwriting. -/

def dget {β : Type} (d : List (List Char × β)) (k : List Char) : Option β :=
  (d.find? (fun p => p.1 == k)).map (fun p => p.2)

def dset {β : Type} (d : List (List Char × β)) (k : List Char) (v : β) :
    List (List Char × β) :=
  (k, v) :: d

/-! ### Matcher primitives

Each fixed regex of the source is hand-compiled to a matcher built from
these primitives.  A matcher takes the current suffix of the document and
returns the captured groups together with the suffix after the match. -/

/-- Match a literal, case-sensitively; return the rest. -/
def dropLit : List Char → List Char → Option (List Char)
  | [], s => some s
  | p :: ps, c :: s => if c = p then dropLit ps s else none
  | _ :: _, [] => none

/-- Match a literal case-insensitively (`re.IGNORECASE`); return the rest. -/
def dropLitCI : List Char → List Char → Option (List Char)
  | [], s => some s
  | p :: ps, c :: s => if eqCI c p then dropLitCI ps s else none
  | _ :: _, [] => none

/-- Match a single given character. -/
def dropChar (c : Char) : List Char → Option (List Char)
  | d :: s => if d = c then some s else none
  | [] => none

/-- `\s+` when the following pattern element cannot match a whitespace
character (true at every use site below except one, noted there): the
greedy quantifier then deterministically consumes the maximal run. -/
def dropWs1 (s : List Char) : Option (List Char) :=
  let ws := s.takeWhile isSpaceChar
  if ws.isEmpty then none else some (s.drop ws.length)

/-- `\s*` when the following pattern element cannot match a whitespace
character: consumes the maximal run. -/
def dropWsMax (s : List Char) : List Char :=
  s.drop ((s.takeWhile isSpaceChar).length)

/-- `(\w+)`: the maximal nonempty run of word characters, with the rest.
At every use site the next pattern element cannot match a word character,
so the greedy quantifier is deterministic. -/
def dropWord1 (s : List Char) : Option (List Char × List Char) :=
  let w := s.takeWhile isWordChar
  if w.isEmpty then none else some (w, s.drop w.length)

/-- `(\d+)`: the maximal nonempty run of digits, with the rest. -/
def dropDigits1 (s : List Char) : Option (List Char × List Char) :=
  let w := s.takeWhile isDigitChar
  if w.isEmpty then none else some (w, s.drop w.length)

/-- `\s*\n`: the greedy `\s*` backtracks until the next character is a
newline, so the candidate resume points are the positions just after each
newline of the maximal whitespace run, latest newline first. -/
def nlCandidates (s : List Char) : List (List Char) :=
  let k := (s.takeWhile isSpaceChar).length
  (((List.range k).filter (fun j => s.getD j ' ' = '\n')).reverse).map
    (fun j => s.drop (j + 1))

/-- `\s*\n\s*LIT` where `LIT` starts with a non-whitespace character: every
backtracking choice of the newline consumes the whole whitespace run, so
this succeeds iff the maximal whitespace run contains a newline. -/
def dropWsWithNl (s : List Char) : Option (List Char) :=
  let ws := s.takeWhile isSpaceChar
  if ws.contains '\n' then some (s.drop ws.length) else none

/-- `\s+` with full backtracking (needed before a lazy group that can match
whitespace): candidate rests after consuming j+1 whitespace characters,
longest first (greedy order). -/
def ws1Candidates (s : List Char) : List (List Char) :=
  let k := (s.takeWhile isSpaceChar).length
  ((List.range k).reverse).map (fun j => s.drop (j + 1))

/-- All splittings of `s` into `prefix ++ suffix`, shortest prefix first:
the candidate captures of a lazy group `(.*?)` under `re.DOTALL`. -/
def lazySplits (s : List Char) : List (List Char × List Char) :=
  s.inits.zip s.tails

/-- `((?:[^']|'')*)'`: the greedy body of a quoted comment followed by the
closing quote.  At each step the alternation tries a non-quote character,
then a doubled quote, and only then lets the Kleene star stop so that the
current quote closes the literal.  Returns the captured body and the rest
after the closing quote. -/
def matchQBody : List Char → Option (List Char × List Char)
  | [] => none
  | a :: rest =>
    if a = squote then
      match rest with
      | b :: rest2 =>
        if b = squote then
          match matchQBody rest2 with
          | some (g, r) => some (squote :: squote :: g, r)
          | none => some ([], rest)
        else some ([], rest)
      | [] => some ([], rest)
    else
      match matchQBody rest with
      | some (g, r) => some (a :: g, r)
      | none => none

/-- `re.search`: try the matcher at each successive position. -/
def searchAux {γ : Type} (m : List Char → Option γ) : Nat → List Char → Option γ
  | 0, _ => none
  | _ + 1, [] => m []
  | fuel + 1, s@(_ :: tail) =>
    match m s with
    | some g => some g
    | none => searchAux m fuel tail

def search {γ : Type} (m : List Char → Option γ) (s : List Char) : Option γ :=
  searchAux m (s.length + 1) s

/-- `re.finditer`: scan left to right; after a match, resume at its end
(all matchers below consume at least one character). -/
def findIterAux {γ : Type} (m : List Char → Option (γ × List Char)) :
    Nat → List Char → List γ
  | 0, _ => []
  | _ + 1, [] => []
  | fuel + 1, s@(_ :: tail) =>
    match m s with
    | some (g, rest) => g :: findIterAux m fuel rest
    | none => findIterAux m fuel tail

def findIter {γ : Type} (m : List Char → Option (γ × List Char)) (s : List Char) :
    List γ :=
  findIterAux m (s.length + 1) s

/-- `re.finditer` variant that also reports each match's start offset. -/
def findIterPosAux {γ : Type} (m : List Char → Option (γ × List Char)) :
    Nat → Nat → List Char → List (Nat × γ)
  | 0, _, _ => []
  | _ + 1, _, [] => []
  | fuel + 1, pos, s@(_ :: tail) =>
    match m s with
    | some (g, rest) => (pos, g) :: findIterPosAux m fuel (pos + (s.length - rest.length)) rest
    | none => findIterPosAux m fuel (pos + 1) tail

def findIterPos {γ : Type} (m : List Char → Option (γ × List Char)) (s : List Char) :
    List (Nat × γ) :=
  findIterPosAux m (s.length + 1) 0 s

/-! ### `_parse_metadata` -/

structure Metadata where
  database_version : Option (List Char) := none
  schema_name : Option (List Char) := none
deriving DecidableEq, Repr

/-- `re.search(r'Database Version\s+:\s+(.+)', content)` (case-sensitive);
`(.+)` greedily takes the maximal nonempty run of non-newline characters. -/
def matchDbVersionAt (s : List Char) : Option (List Char) := do
  let r ← dropLit "Database Version".toList s
  let r ← dropWs1 r
  let r ← dropChar ':' r
  let r ← dropWs1 r
  let v := r.takeWhile (fun c => c ≠ '\n')
  if v.isEmpty then none else some v

/-- `re.search(r'--\s+Schema\s+:\s+(\w+)', content)` (case-sensitive). -/
def matchSchemaAt (s : List Char) : Option (List Char) := do
  let r ← dropLit "--".toList s
  let r ← dropWs1 r
  let r ← dropLit "Schema".toList r
  let r ← dropWs1 r
  let r ← dropChar ':' r
  let r ← dropWs1 r
  let (w, _) ← dropWord1 r
  pure w

def parseMetadata (content : List Char) : Metadata :=
  { database_version := (search matchDbVersionAt content).map pyStrip
    schema_name := (search matchSchemaAt content).map pyStrip }

/-! ### `_parse_tables` / `_parse_columns` -/

/-- One raw match of the column regex
`^\s*(\w+)\s+(VARCHAR2|NUMBER|DATE|TIMESTAMP|CHAR|CLOB|BLOB|INTEGER|XMLTYPE|RAW|SYS\.XMLTYPE)(?:\((\d+)(?:\s*BYTE)?(?:,(\d+))?\))?([^,\n]*)`. -/
structure ColMatch where
  cname : List Char
  ctype : List Char
  csize : Option (List Char) := none
  cscale : Option (List Char) := none
  crest : List Char
deriving DecidableEq, Repr

/-- The type alternation, in source order. -/
def colTypeLits : List (List Char) :=
  ["VARCHAR2".toList, "NUMBER".toList, "DATE".toList, "TIMESTAMP".toList,
   "CHAR".toList, "CLOB".toList, "BLOB".toList, "INTEGER".toList,
   "XMLTYPE".toList, "RAW".toList, "SYS.XMLTYPE".toList]

/-- Try each alternative in order; capture the matched text. -/
def matchColType (s : List Char) : Option (List Char × List Char) :=
  colTypeLits.findSome? (fun pat =>
    (dropLitCI pat s).map (fun r => (s.take pat.length, r)))

/-- `(?:\((\d+)(?:\s*BYTE)?(?:,(\d+))?\))?`: the optional size specification.
Greedy option order: the `BYTE` branch is tried before its omission, and the
`,(\d+)` branch before its omission; each branch carries the continuation up
to the closing parenthesis, so failure backtracks exactly as `re` does. -/
def matchSizeParen (s : List Char) : Option ((List Char × Option (List Char)) × List Char) :=
  match s with
  | c :: r =>
    if c = '(' then
      (dropDigits1 r).bind (fun p =>
        let ds := p.1
        let afterComma : List Char → Option (Option (List Char) × List Char) := fun t =>
          (match t with
           | d :: t2 =>
             if d = ',' then
               (dropDigits1 t2).bind (fun q =>
                 match q.2 with
                 | e :: t4 => if e = ')' then some (some q.1, t4) else none
                 | [] => none)
             else none
           | [] => none)
          <|>
          (match t with
           | e :: t4 => if e = ')' then some (none, t4) else none
           | [] => none)
        (((dropLitCI "BYTE".toList (dropWsMax p.2)).bind afterComma).map
            (fun q => ((ds, q.1), q.2)))
        <|> ((afterComma p.2).map (fun q => ((ds, q.1), q.2))))
    else none
  | [] => none

/-- Match the column regex at a line start (`^` is checked by the driver). -/
def matchColumnAt (s : List Char) : Option (ColMatch × List Char) := do
  let r := dropWsMax s
  let (name, r) ← dropWord1 r
  let r ← dropWs1 r
  let (ty, r) ← matchColType r
  let (sz, sc, r) :=
    match matchSizeParen r with
    | some ((ds, dsc), r2) => (some ds, dsc, r2)
    | none => (none, none, r)
  let rest := r.takeWhile (fun c => !(c = ',' || c = '\n'))
  pure (⟨name, ty, sz, sc, rest⟩, r.drop rest.length)

/-- `re.finditer` with `re.MULTILINE`: a match may start only at offset 0 or
just after a newline; `atLS` says whether the current position is such a
line start. -/
def colFindAux : Nat → Bool → List Char → List ColMatch
  | 0, _, _ => []
  | _ + 1, _, [] => []
  | fuel + 1, atLS, s@(c :: tail) =>
    if atLS then
      match matchColumnAt s with
      | some (m, rest) =>
        let consumed := s.take (s.length - rest.length)
        m :: colFindAux fuel (consumed.getLastD c = '\n') rest
      | none => colFindAux fuel (c = '\n') tail
    else colFindAux fuel (c = '\n') tail

def columnMatches (block : List Char) : List ColMatch :=
  colFindAux (block.length + 1) true block

def constraintKeywords : List (List Char) :=
  ["SUPPLEMENTAL".toList, "CONSTRAINT".toList, "PRIMARY".toList,
   "FOREIGN".toList, "UNIQUE".toList, "CHECK".toList]

def charLenTypes : List (List Char) :=
  ["VARCHAR2".toList, "CHAR".toList, "RAW".toList]

/-- `re.search(r'DEFAULT\s+(.+?)(?:\s+NOT|\s+NULL|\s*$)', rest, re.IGNORECASE)`,
applied at one position.  `\s+` before the lazy group backtracks (the group
can capture whitespace), longest first; the lazy group takes nonempty
non-newline text, shortest first, until one of the three terminators
(tried in source order) matches.  `$` is end-of-text here since the
subject (a `[^,\n]*` capture) never contains a newline. -/
def matchDefaultAt (s : List Char) : Option (List Char) := do
  let r0 ← dropLitCI "DEFAULT".toList s
  (ws1Candidates r0).findSome? (fun r =>
    (lazySplits r).findSome? (fun pre =>
      if pre.1.isEmpty || pre.1.contains '\n' then none
      else
        let suf := pre.2
        let termNot := ((dropWs1 suf).bind (dropLitCI "NOT".toList)).isSome
        let termNull := ((dropWs1 suf).bind (dropLitCI "NULL".toList)).isSome
        let termEnd := suf.all isSpaceChar
        if termNot || termNull || termEnd then some pre.1 else none))

/-- The body of the `_parse_columns` loop: skip constraint-like lines,
otherwise build the `Column` (lines 116-134 of `toad_parser.py`). -/
def mkColumnFromMatch (m : ColMatch) : Option Column :=
  if pyUpper m.cname ∈ constraintKeywords then none
  else
    let dtU := pyUpper m.ctype
    some
      { name := m.cname
        data_type := dtU
        nullable := !(isSubstr "NOT NULL".toList (pyUpper m.crest))
        max_length :=
          if m.csize.isSome && dtU ∈ charLenTypes then m.csize.map digitsToNat else none
        precision :=
          if m.csize.isSome && dtU = "NUMBER".toList then m.csize.map digitsToNat else none
        scale := m.cscale.map digitsToNat
        default_value := (search matchDefaultAt m.crest).map pyStrip
        comment := none }

def parseColumns (block : List Char) : List Column :=
  (columnMatches block).filterMap mkColumnFromMatch

/-- `(?:(\w+)\.)?(\w+)`: optional schema qualifier and name.  A dot can only
follow the maximal word run, and when no word follows the dot both the
qualifier branch and the bare branch fail (the next pattern element never
matches a dot), so this is deterministic. -/
def dropOptQualWord (s : List Char) :
    Option (Option (List Char) × List Char × List Char) :=
  match dropWord1 s with
  | none => none
  | some (w, r) =>
    match r with
    | c :: r2 =>
      if c = '.' then (dropWord1 r2).map (fun p => (some w, p.1, p.2))
      else some (none, w, c :: r2)
    | [] => some (none, w, ([] : List Char))

/-- One raw match of the `CREATE TABLE` regex
`CREATE TABLE\s+(?:(\w+)\.)?(\w+)\s*\(\s*\n(.*?)\n\)\s*\n(?:TABLESPACE|;)`
(`re.DOTALL | re.IGNORECASE`). -/
def matchTableAt (s : List Char) : Option ((Option (List Char) × List Char × List Char) × List Char) := do
  let r ← dropLitCI "CREATE TABLE".toList s
  let r ← dropWs1 r
  let (sch, name, r) ← dropOptQualWord r
  let r ← dropChar '(' (dropWsMax r)
  (nlCandidates r).findSome? (fun r4 =>
    (lazySplits r4).findSome? (fun p =>
      match p.2 with
      | c1 :: c2 :: r6 =>
        if c1 = '\n' && c2 = ')' then
          (nlCandidates r6).findSome? (fun r7 =>
            match dropLitCI "TABLESPACE".toList r7 with
            | some r8 => some ((sch, name, p.1), r8)
            | none =>
              match r7 with
              | d :: r8 => if d = ';' then some ((sch, name, p.1), r8) else none
              | [] => none)
        else none
      | _ => none))

def tableMatches (content : List Char) :
    List (Nat × (Option (List Char) × List Char × List Char)) :=
  findIterPos matchTableAt content

/-- `re.search(r'--\s+Row Count:\s*(\d+)', preceding)` (case-sensitive). -/
def matchRowCountAt (s : List Char) : Option Nat := do
  let r ← dropLit "--".toList s
  let r ← dropWs1 r
  let r ← dropLit "Row Count:".toList r
  let (ds, _) ← dropDigits1 (dropWsMax r)
  pure (digitsToNat ds)

/-- The row-count hint: search the 200 characters before the match start. -/
def rowCountFor (content : List Char) (start : Nat) : Nat :=
  match search matchRowCountAt ((content.take start).drop (start - 200)) with
  | some n => n
  | none => 0

def parseTables (content : List Char) : List Table :=
  let default_schema := (parseMetadata content).schema_name.getD "UNKNOWN".toList
  (tableMatches content).map (fun p =>
    { name := p.2.2.1
      schema_name := (p.2.1).getD default_schema
      columns := parseColumns p.2.2.2
      row_count := rowCountFor content p.1 })

/-! ### `_parse_table_comments` / `_parse_column_comments` -/

/-- `LIT\s+` for a case-insensitive literal followed by required whitespace. -/
def dropLitWsCI (pat : List Char) (s : List Char) : Option (List Char) :=
  (dropLitCI pat s).bind dropWs1

/-- `\w+\.(\w+)`: uncaptured qualifier, dot, captured name.  The dot can
only follow the maximal word run, so this is deterministic. -/
def dropQualDotWord (s : List Char) : Option (List Char × List Char) :=
  match dropWord1 s with
  | none => none
  | some (_, r) =>
    match dropChar '.' r with
    | none => none
    | some r => dropWord1 r

/-- `\s+IS\s+'((?:[^']|'')*)'`: the tail shared by both comment regexes. -/
def dropIsQuoted (s : List Char) : Option (List Char × List Char) :=
  match dropWs1 s with
  | none => none
  | some r =>
  match dropLitWsCI "IS".toList r with
  | none => none
  | some r =>
  match dropChar squote r with
  | none => none
  | some r => matchQBody r

/-- `COMMENT\s+ON\s+TABLE\s+\w+\.(\w+)\s+IS\s+'((?:[^']|'')*)'` with
`re.IGNORECASE`; groups: table name, raw comment body. -/
def matchTableCommentAt (s : List Char) : Option ((List Char × List Char) × List Char) :=
  match dropLitWsCI "COMMENT".toList s with
  | none => none
  | some r =>
  match dropLitWsCI "ON".toList r with
  | none => none
  | some r =>
  match dropLitWsCI "TABLE".toList r with
  | none => none
  | some r =>
  match dropQualDotWord r with
  | none => none
  | some (tbl, r) =>
  match dropIsQuoted r with
  | none => none
  | some (body, r) => some ((tbl, body), r)

def tableCommentMatches (content : List Char) : List (List Char × List Char) :=
  findIter matchTableCommentAt content

def parseTableComments (content : List Char) : List (List Char × List Char) :=
  (tableCommentMatches content).foldl
    (fun d m => dset d m.1 (unescapeComment m.2)) []

/-- `COMMENT\s+ON\s+COLUMN\s+\w+\.(\w+)\.(\w+)\s+IS\s+'((?:[^']|'')*)'` with
`re.IGNORECASE`; groups: table name, column name, raw comment body. -/
def matchColumnCommentAt (s : List Char) :
    Option ((List Char × List Char × List Char) × List Char) :=
  match dropLitWsCI "COMMENT".toList s with
  | none => none
  | some r =>
  match dropLitWsCI "ON".toList r with
  | none => none
  | some r =>
  match dropLitWsCI "COLUMN".toList r with
  | none => none
  | some r =>
  match dropQualDotWord r with
  | none => none
  | some (tbl, r) =>
  match dropChar '.' r with
  | none => none
  | some r =>
  match dropWord1 r with
  | none => none
  | some (col, r) =>
  match dropIsQuoted r with
  | none => none
  | some (body, r) => some ((tbl, col, body), r)

def columnCommentMatches (content : List Char) :
    List (List Char × List Char × List Char) :=
  findIter matchColumnCommentAt content

def parseColumnComments (content : List Char) :
    List (List Char × List (List Char × List Char)) :=
  (columnCommentMatches content).foldl
    (fun d m =>
      let inner := (dget d m.1).getD []
      dset d m.1 (dset inner m.2.1 (unescapeComment m.2.2)))
    []

/-! ### `_parse_primary_keys` / `_parse_foreign_keys` -/

/-- `ALTER\s+TABLE\s+(\w+)\s+ADD\s+\(\s*\n\s*CONSTRAINT\s+(\w+)`: the prefix
shared by the primary-key and foreign-key regexes; groups: table name,
constraint name. -/
def dropAlterAddConstraint (s : List Char) :
    Option ((List Char × List Char) × List Char) :=
  match dropLitWsCI "ALTER".toList s with
  | none => none
  | some r =>
  match dropLitWsCI "TABLE".toList r with
  | none => none
  | some r =>
  match dropWord1 r with
  | none => none
  | some (tbl, r) =>
  match dropWs1 r with
  | none => none
  | some r =>
  match dropLitWsCI "ADD".toList r with
  | none => none
  | some r =>
  match dropChar '(' r with
  | none => none
  | some r =>
  match dropWsWithNl r with
  | none => none
  | some r =>
  match dropLitWsCI "CONSTRAINT".toList r with
  | none => none
  | some r =>
  match dropWord1 r with
  | none => none
  | some (cname, r) => some ((tbl, cname), r)

/-- `(.*?)\)` when the pattern ends at the closing parenthesis: the lazy
group is the text up to the first `)`. -/
def dropUpToParen (s : List Char) : Option (List Char × List Char) :=
  let cols := s.takeWhile (fun c => c ≠ ')')
  match s.drop cols.length with
  | c :: r2 => if c = ')' then some (cols, r2) else none
  | [] => none

/-- `ALTER\s+TABLE\s+(\w+)\s+ADD\s+\(\s*\n\s*CONSTRAINT\s+(\w+)\s*\n\s*PRIMARY\s+KEY\s*\n\s*\((.*?)\)`
(`re.DOTALL | re.IGNORECASE`); groups: table, constraint name, column list. -/
def matchPkAt (s : List Char) :
    Option ((List Char × List Char × List Char) × List Char) :=
  match dropAlterAddConstraint s with
  | none => none
  | some ((tbl, cname), r) =>
  match dropWsWithNl r with
  | none => none
  | some r =>
  match dropLitWsCI "PRIMARY".toList r with
  | none => none
  | some r =>
  match dropLitCI "KEY".toList r with
  | none => none
  | some r =>
  match dropWsWithNl r with
  | none => none
  | some r =>
  match dropChar '(' r with
  | none => none
  | some r =>
  match dropUpToParen r with
  | none => none
  | some (cols, r2) => some ((tbl, cname, cols), r2)

def pkMatches (content : List Char) : List (List Char × List Char × List Char) :=
  findIter matchPkAt content

def mkPrimaryKey (cname cols : List Char) : PrimaryKey :=
  { constraint_name := cname, columns := splitColsTrim cols }

def parsePrimaryKeys (content : List Char) : List (List Char × PrimaryKey) :=
  (pkMatches content).foldl
    (fun d m => dset d m.1 (mkPrimaryKey m.2.1 m.2.2)) []

/-- `ALTER\s+TABLE\s+(\w+)\s+ADD\s+\(\s*\n\s*CONSTRAINT\s+(\w+)\s*\n\s*FOREIGN\s+KEY\s+\((.*?)\)\s*\n\s*REFERENCES\s+(\w+)\s+\((.*?)\)`
(`re.DOTALL | re.IGNORECASE`).  The first lazy group backtracks past
closing parentheses for which the `REFERENCES` continuation fails; the
second ends the pattern, so it is the text up to the first `)`. -/
def matchFkReferencesTail (r2 : List Char) :
    Option ((List Char × List Char) × List Char) :=
  match dropWsWithNl r2 with
  | none => none
  | some r3 =>
  match dropLitWsCI "REFERENCES".toList r3 with
  | none => none
  | some r3 =>
  match dropWord1 r3 with
  | none => none
  | some (rt, r3) =>
  match dropWs1 r3 with
  | none => none
  | some r3 =>
  match dropChar '(' r3 with
  | none => none
  | some r3 =>
  match dropUpToParen r3 with
  | none => none
  | some (rcols, r4) => some ((rt, rcols), r4)

def matchFkAt (s : List Char) :
    Option ((List Char × List Char × List Char × List Char × List Char) × List Char) :=
  match dropAlterAddConstraint s with
  | none => none
  | some ((tbl, cname), r) =>
  match dropWsWithNl r with
  | none => none
  | some r =>
  match dropLitWsCI "FOREIGN".toList r with
  | none => none
  | some r =>
  match dropLitWsCI "KEY".toList r with
  | none => none
  | some r =>
  match dropChar '(' r with
  | none => none
  | some r =>
  (lazySplits r).findSome? (fun p =>
    match p.2 with
    | c :: r2 =>
      if c = ')' then
        match matchFkReferencesTail r2 with
        | none => none
        | some ((rt, rcols), r4) => some ((tbl, cname, p.1, rt, rcols), r4)
      else none
    | [] => none)

def fkMatches (content : List Char) :
    List (List Char × List Char × List Char × List Char × List Char) :=
  findIter matchFkAt content

def mkForeignKey (cname cols rt rcols : List Char) : ForeignKey :=
  { constraint_name := cname
    columns := splitColsTrim cols
    referenced_table := rt
    referenced_columns := splitColsTrim rcols }

def parseForeignKeys (content : List Char) : List (List Char × List ForeignKey) :=
  (fkMatches content).foldl
    (fun d m =>
      let cur := (dget d m.1).getD []
      dset d m.1 (cur ++ [mkForeignKey m.2.1 m.2.2.1 m.2.2.2.1 m.2.2.2.2]))
    []

/-! ### `_parse_views` -/

structure ViewMatch where
  vschema : Option (List Char) := none
  vname : List Char
  vcols : List Char
  vselect : List Char
deriving DecidableEq, Repr

/-- The section-boundary lookahead `(?=\n\n--|\nGRANT|\nCREATE|\Z)` under
`re.IGNORECASE`: a zero-width test at the position after the SELECT body. -/
def viewStop (suf : List Char) : Bool :=
  suf.isEmpty
    || (dropLitCI "\n\n--".toList suf).isSome
    || (dropLitCI "\nGRANT".toList suf).isSome
    || (dropLitCI "\nCREATE".toList suf).isSome

/-- `AS\s*\n(.*?)(?=\n\n--|\nGRANT|\nCREATE|\Z)`: greedy newline choice,
then the shortest body whose end satisfies the lookahead.  Returns the
body and the rest (the lookahead consumes nothing). -/
def matchViewAsTail (r : List Char) : Option (List Char × List Char) :=
  match dropLitCI "AS".toList r with
  | none => none
  | some r =>
    (nlCandidates r).findSome? (fun r2 =>
      (lazySplits r2).findSome? (fun p =>
        if viewStop p.2 then some (p.1, p.2) else none))

/-- `(?:BEQUEATH\s+DEFINER\s*\n)?AS\s*\n...`: the optional clause is tried
first (greedy), with the whole continuation; otherwise it is skipped. -/
def matchViewBody (r : List Char) : Option (List Char × List Char) :=
  (match dropLitWsCI "BEQUEATH".toList r with
   | none => none
   | some r3 =>
     match dropLitCI "DEFINER".toList r3 with
     | none => none
     | some r3 => (nlCandidates r3).findSome? matchViewAsTail)
  <|> matchViewAsTail r

/-- `CREATE\s+OR\s+REPLACE\s+FORCE\s+VIEW\s+(?:(\w+)\.)?(\w+)\s*\n\((.*?)\)\s*\n(?:BEQUEATH\s+DEFINER\s*\n)?AS\s*\n(.*?)(?=\n\n--|\nGRANT|\nCREATE|\Z)`
(`re.DOTALL | re.IGNORECASE`). -/
def matchViewAt (s : List Char) : Option (ViewMatch × List Char) :=
  match dropLitWsCI "CREATE".toList s with
  | none => none
  | some r =>
  match dropLitWsCI "OR".toList r with
  | none => none
  | some r =>
  match dropLitWsCI "REPLACE".toList r with
  | none => none
  | some r =>
  match dropLitWsCI "FORCE".toList r with
  | none => none
  | some r =>
  match dropLitWsCI "VIEW".toList r with
  | none => none
  | some r =>
  match dropOptQualWord r with
  | none => none
  | some (sch, name, r) =>
    (nlCandidates r).findSome? (fun r2 =>
      match dropChar '(' r2 with
      | none => none
      | some r3 =>
        (lazySplits r3).findSome? (fun p =>
          match p.2 with
          | c :: r4 =>
            if c = ')' then
              (nlCandidates r4).findSome? (fun r5 =>
                (matchViewBody r5).map (fun q =>
                  ((⟨sch, name, p.1, q.1⟩ : ViewMatch), q.2)))
            else none
          | [] => none))

def viewMatchList (content : List Char) : List ViewMatch :=
  findIter matchViewAt content

def parseViews (content : List Char) : List View :=
  let default_schema := (parseMetadata content).schema_name.getD "UNKNOWN".toList
  (viewMatchList content).map (fun m =>
    { name := m.vname
      schema_name := m.vschema.getD default_schema
      columns := splitColsTrim m.vcols
      select_statement := pyStrip m.vselect })

/-! ### `_parse_procedures` / `_parse_procedure_parameters` -/

structure PackageMatch where
  pschema : Option (List Char) := none
  pname : List Char
  pbody : List Char
deriving DecidableEq, Repr

/-- `\s*\n(.*?)\nEND\s+\w+;`: the package body up to its terminator. -/
def matchPackageTail (r : List Char) : Option (List Char × List Char) :=
  (nlCandidates r).findSome? (fun r2 =>
    (lazySplits r2).findSome? (fun p =>
      match p.2 with
      | c :: r3 =>
        if c = '\n' then
          match dropLitWsCI "END".toList r3 with
          | none => none
          | some r4 =>
            match dropWord1 r4 with
            | none => none
            | some (_, r5) =>
              match dropChar ';' r5 with
              | none => none
              | some r6 => some (p.1, r6)
        else none
      | [] => none))

/-- `CREATE\s+OR\s+REPLACE\s+PACKAGE\s+(?:(\w+)\.)?(\w+)\s+(?:AS|IS)\s*\n(.*?)\nEND\s+\w+;`
(`re.DOTALL | re.IGNORECASE`). -/
def matchPackageAt (s : List Char) : Option (PackageMatch × List Char) :=
  match dropLitWsCI "CREATE".toList s with
  | none => none
  | some r =>
  match dropLitWsCI "OR".toList r with
  | none => none
  | some r =>
  match dropLitWsCI "REPLACE".toList r with
  | none => none
  | some r =>
  match dropLitWsCI "PACKAGE".toList r with
  | none => none
  | some r =>
  match dropOptQualWord r with
  | none => none
  | some (sch, name, r) =>
  match dropWs1 r with
  | none => none
  | some r =>
    -- `(?:AS|IS)`: alternatives in order, each with the whole continuation
    (match dropLitCI "AS".toList r with
     | none => none
     | some r2 =>
       (matchPackageTail r2).map (fun q => ((⟨sch, name, q.1⟩ : PackageMatch), q.2)))
    <|>
    (match dropLitCI "IS".toList r with
     | none => none
     | some r2 =>
       (matchPackageTail r2).map (fun q => ((⟨sch, name, q.1⟩ : PackageMatch), q.2)))

def packageMatches (content : List Char) : List PackageMatch :=
  findIter matchPackageAt content

/-- `PROCEDURE\s+(\w+)\s*\((.*?)\);` (`re.DOTALL | re.IGNORECASE`): the lazy
parameter group extends to the first `)` directly followed by `;`. -/
def matchProcAt (s : List Char) : Option ((List Char × List Char) × List Char) :=
  match dropLitWsCI "PROCEDURE".toList s with
  | none => none
  | some r =>
  match dropWord1 r with
  | none => none
  | some (pname, r) =>
  match dropChar '(' (dropWsMax r) with
  | none => none
  | some r =>
    (lazySplits r).findSome? (fun p =>
      match p.2 with
      | c :: d :: r2 =>
        if c = ')' && d = ';' then some ((pname, p.1), r2) else none
      | _ => none)

def procMatches (body : List Char) : List (List Char × List Char) :=
  findIter matchProcAt body

/-- `re.match(r'(\w+)\s+(IN\s+OUT|OUT|IN)\s+(.+)', param, re.IGNORECASE)`:
anchored at the start; the direction alternatives are tried in order, each
with the continuation `\s+(.+)` (so `X IN OUT` falls through to direction
`IN` with type text `OUT`).  `(.+)` takes the maximal nonempty run of
non-newline characters.  Returns (name, matched direction text, type text). -/
def matchParamDirForm (p : List Char) :
    Option (List Char × List Char × List Char) :=
  match dropWord1 p with
  | none => none
  | some (n, r) =>
  match dropWs1 r with
  | none => none
  | some r =>
    let cont : List Char × List Char → Option (List Char × List Char × List Char) :=
      fun q =>
        match dropWs1 q.2 with
        | none => none
        | some r4 =>
          let ty := r4.takeWhile (fun c => c ≠ '\n')
          if ty.isEmpty then none else some (n, q.1, ty)
    ((match dropLitCI "IN".toList r with
      | none => none
      | some r1 =>
        match dropWs1 r1 with
        | none => none
        | some r2 =>
          match dropLitCI "OUT".toList r2 with
          | none => none
          | some r3 => some (r.take (r.length - r3.length), r3)).bind cont)
    <|> (((dropLitCI "OUT".toList r).map (fun r3 => (r.take 3, r3))).bind cont)
    <|> (((dropLitCI "IN".toList r).map (fun r3 => (r.take 2, r3))).bind cont)

/-- `re.match(r'(\w+)\s+(.+)', param, re.IGNORECASE)`: the fallback form. -/
def matchParamFallback (p : List Char) : Option (List Char × List Char) :=
  match dropWord1 p with
  | none => none
  | some (n, r) =>
  match dropWs1 r with
  | none => none
  | some r =>
    let ty := r.takeWhile (fun c => c ≠ '\n')
    if ty.isEmpty then none else some (n, ty)

/-- The per-token body of the `_parse_procedure_parameters` loop. -/
def parseOneParam (param : List Char) : Option ProcedureParameter :=
  let p := pyStrip param
  if p.isEmpty then none
  else
    match matchParamDirForm p with
    | some (n, dir, ty) =>
      some { name := n, direction := pyUpper (pyStrip dir), data_type := pyStrip ty }
    | none =>
      match matchParamFallback p with
      | some (n, ty) =>
        some { name := n, direction := "IN".toList, data_type := pyStrip ty }
      | none => none

def parseProcParams (params_str : List Char) : List ProcedureParameter :=
  ((normWs params_str).splitOn ',').filterMap parseOneParam

/-- `any(p.direction in ('OUT', 'IN OUT') and ('REF' in p.data_type.upper()
and 'CURSOR' in p.data_type.upper()) for p in parameters)`. -/
def hasRefcursorOut (ps : List ProcedureParameter) : Bool :=
  ps.any (fun p =>
    (p.direction == "OUT".toList || p.direction == "IN OUT".toList)
      && (isSubstr "REF".toList (pyUpper p.data_type)
            && isSubstr "CURSOR".toList (pyUpper p.data_type)))

/-- Lines 231-250 of `toad_parser.py`: build one `Procedure` from a
procedure-declaration match inside a package. -/
def mkProcedure (pname pkgname schname params_str : List Char) : Procedure :=
  let parameters := parseProcParams params_str
  { name := pname
    package_name := pkgname
    schema_name := schname
    parameters := parameters
    has_refcursor_out := hasRefcursorOut parameters }

def parseProcedures (content : List Char) : List Procedure :=
  let default_schema := (parseMetadata content).schema_name.getD "UNKNOWN".toList
  (packageMatches content).flatMap (fun pk =>
    (procMatches pk.pbody).map (fun pr =>
      mkProcedure pr.1 pk.pname (pk.pschema.getD default_schema) pr.2))

/-! ### The merge step and `parse` -/

/-- Lines 25-36 of `toad_parser.py`: apply comments and constraints onto one
table, keyed by `table.name`. -/
def mergeTable (tcs : List (List Char × List Char))
    (ccs : List (List Char × List (List Char × List Char)))
    (pks : List (List Char × PrimaryKey))
    (fks : List (List Char × List ForeignKey)) (t : Table) : Table :=
  { t with
    comment := dget tcs t.name
    columns := t.columns.map (fun c =>
      { c with comment := dget ((dget ccs t.name).getD []) c.name })
    primary_key :=
      match dget pks t.name with
      | some pk => some pk
      | none => t.primary_key
    foreign_keys :=
      match dget fks t.name with
      | some l => l
      | none => t.foreign_keys }

/-- `ToadDdlParser.parse`: run every sub-extractor over the document, merge
comments and constraints onto the tables, and assemble the model.  `now`
stands for the `datetime.now()` reading. -/
def parse (now : Nat) (content : List Char) : SchemaModel :=
  let metadata := parseMetadata content
  let tables := parseTables content
  let table_comments := parseTableComments content
  let column_comments := parseColumnComments content
  let views := parseViews content
  let procedures := parseProcedures content
  let primary_keys := parsePrimaryKeys content
  let foreign_keys := parseForeignKeys content
  { database_type := "oracle".toList
    database_version := metadata.database_version
    schema_name := metadata.schema_name.getD "UNKNOWN".toList
    extracted_at := now
    tables := tables.map (mergeTable table_comments column_comments primary_keys foreign_keys)
    views := views
    procedures := procedures }

/-! ### Spec-side definitions and concrete documents used by the theorems -/

/-- Spec side of the last-wins policy: the last primary-key match (in
document order) whose table name is `k`, built into a `PrimaryKey`. -/
def lastPkFor (content : List Char) (k : List Char) : Option PrimaryKey :=
  (((pkMatches content).filter (fun m => m.1 == k)).getLast?).map
    (fun m => mkPrimaryKey m.2.1 m.2.2)

/-- Does the text contain two adjacent single quotes? -/
def hasDoubledQuote : List Char → Bool
  | a :: b :: r => (a = squote && b = squote) || hasDoubledQuote (b :: r)
  | _ => false

/-- Three adjacent single quotes. -/
def tripleQuote : List Char := [squote, squote, squote]

/-- The end-to-end document of the C1 scenario: default schema HR, a row
count hint, one `CREATE TABLE EMP` block, a table comment, a primary key
on ID, and no foreign keys. -/
def docC1 : List Char :=
  "-- Schema : HR\n-- Row Count: 42\nCREATE TABLE EMP\n(\n  ID NUMBER(10) NOT NULL,\n  NAME VARCHAR2(50)\n)\n;\nCOMMENT ON TABLE HR.EMP IS ".toList
    ++ [squote] ++ "Employees".toList ++ [squote]
    ++ ";\nALTER TABLE EMP ADD (\n  CONSTRAINT PK_EMP\n  PRIMARY KEY\n  (ID))\n;\n".toList

/-- A foreign-key statement whose local column list has two entries but
whose referenced column list has one. -/
def docFkMismatch : List Char :=
  "ALTER TABLE CHILD ADD (\n  CONSTRAINT FK1\n  FOREIGN KEY (A, B)\n  REFERENCES PARENT (C))\n;\n".toList

/-- Two table blocks with the same name `T` under different schema
qualifiers, plus a primary key registered under the bare name `T`. -/
def docC9 : List Char :=
  "-- Schema : HR\nCREATE TABLE A.T\n(\n  X NUMBER\n)\n;\nCREATE TABLE B.T\n(\n  Y NUMBER\n)\n;\nALTER TABLE T ADD (\n  CONSTRAINT PK_T\n  PRIMARY KEY\n  (X))\n;\n".toList

/-- A primary-key statement with an empty parenthesized column list. -/
def docEmptyParens : List Char :=
  "ALTER TABLE T ADD (\n  CONSTRAINT PK_T\n  PRIMARY KEY\n  ())\n;\n".toList

/-- A fragment that matches none of the extraction patterns. -/
def docMalformed : List Char :=
  "CREATE TABLE ??? garbage ((".toList

/-- The first table extracted from `docC9` (schema qualifier `A`). -/
def tableC9A : Table :=
  { name := "T".toList
    schema_name := "A".toList
    columns := [{ name := "X".toList, data_type := "NUMBER".toList }]
    row_count := 0
    comment := none
    primary_key := some { constraint_name := "PK_T".toList, columns := ["X".toList] }
    foreign_keys := [] }

/-- The second table extracted from `docC9` (schema qualifier `B`). -/
def tableC9B : Table :=
  { name := "T".toList
    schema_name := "B".toList
    columns := [{ name := "Y".toList, data_type := "NUMBER".toList }]
    row_count := 0
    comment := none
    primary_key := some { constraint_name := "PK_T".toList, columns := ["X".toList] }
    foreign_keys := [] }

/-! ### Helper lemmas -/

theorem dget_dset {β : Type} (d : List (List Char × β)) (k j : List Char) (v : β) :
    dget (dset d k v) j = if k == j then some v else dget d j := by
  by_cases h : k == j
  · simp [dget, dset, List.find?, h]
  · simp [dget, dset, List.find?, h]

theorem length_splitOnP (p : Char → Bool) (l : List Char) :
    (l.splitOnP p).length = l.countP p + 1 := by
  induction l with
  | nil => simp [List.splitOnP_nil]
  | cons x xs ih =>
    rw [List.splitOnP_cons]
    by_cases h : p x
    · simp [h, ih, List.countP_cons]
    · simp [h, ih, List.countP_cons]

theorem nlToSpace_count_comma (s : List Char) :
    (nlToSpace s).count ',' = s.count ',' := by
  unfold nlToSpace
  rw [List.count_eq_countP, List.count_eq_countP, List.countP_map]
  apply List.countP_congr
  intro c _
  by_cases h : c = '\n' <;> simp [h, Function.comp]

theorem splitColsTrim_length (s : List Char) :
    (splitColsTrim s).length = s.count ',' + 1 := by
  unfold splitColsTrim
  rw [List.length_map, List.splitOn, length_splitOnP, ← List.count_eq_countP,
    nlToSpace_count_comma]

theorem splitColsTrim_ne_nil (s : List Char) : splitColsTrim s ≠ [] := by
  intro h
  have := splitColsTrim_length s
  rw [h] at this
  simp at this

/-! ### The claims -/

/-- C5 counterexample: the unescaping function is not idempotent on every
string; on three adjacent quotes the first application yields two adjacent
quotes and the second collapses them further. -/
theorem claim_C5_counterexample :
    unescapeComment (unescapeComment tripleQuote) ≠ unescapeComment tripleQuote := by
  decide

/-- C5 (amended): the comment-unescaping function turns every two adjacent
single quotes (scanned left to right, non-overlapping) into one literal
quote, and it leaves unchanged any text that contains no two adjacent
single quotes.  (It is not idempotent on arbitrary strings, so
"already-unescaped text" must be read as "text with no doubled quote",
not as "any output of the function".) -/
theorem claim_C5_amended :
    (∀ s : List Char, unescapeComment (squote :: squote :: s) = squote :: unescapeComment s)
    ∧ (∀ s : List Char, hasDoubledQuote s = false → unescapeComment s = s) := by
  constructor
  · intro s
    simp [unescapeComment]
  · intro s
    induction s with
    | nil => intro _; rfl
    | cons a tail ih =>
      intro h
      match tail, ih, h with
      | [], _, _ => rfl
      | b :: r, ih, h =>
        rw [hasDoubledQuote] at h
        rw [Bool.or_eq_false_iff] at h
        rw [unescapeComment, if_neg (by simp [h.1]), ih h.2]

/-- C5 witness: instantiation of the amended claim on quote-free text. -/
theorem claim_C5_witness :
    unescapeComment "abc".toList = "abc".toList :=
  claim_C5_amended.2 "abc".toList (by decide)

/-- C7: a parsed column is not nullable exactly when the trailing modifier
text of its declaration contains a `NOT NULL` marker (after upper-casing),
and it is nullable when there is no trailing modifier text at all. -/
theorem claim_C7_nullable (m : ColMatch) (c : Column)
    (h : mkColumnFromMatch m = some c) :
    (c.nullable = false ↔ isSubstr "NOT NULL".toList (pyUpper m.crest) = true)
    ∧ (m.crest = [] → c.nullable = true) := by
  unfold mkColumnFromMatch at h
  split at h
  · exact absurd h (by simp)
  · rw [Option.some.injEq] at h
    subst h
    refine ⟨by simp, ?_⟩
    intro hr
    rw [hr]
    exact (by decide :
      (!isSubstr "NOT NULL".toList (pyUpper ([] : List Char))) = true)

/-- C7 witness: the theorem instantiated on a declaration carrying a
`NOT NULL` modifier. -/
theorem claim_C7_witness :
    (({ name := "ID".toList, data_type := "NUMBER".toList, nullable := false } :
        Column).nullable = false
      ↔ isSubstr "NOT NULL".toList
          (pyUpper ({ cname := "ID".toList, ctype := "NUMBER".toList,
                      crest := " NOT NULL".toList } : ColMatch).crest) = true)
    ∧ (({ cname := "ID".toList, ctype := "NUMBER".toList,
          crest := " NOT NULL".toList } : ColMatch).crest = []
        → ({ name := "ID".toList, data_type := "NUMBER".toList, nullable := false } :
            Column).nullable = true) :=
  claim_C7_nullable
    { cname := "ID".toList, ctype := "NUMBER".toList, crest := " NOT NULL".toList }
    { name := "ID".toList, data_type := "NUMBER".toList, nullable := false }
    (by decide)

/-- C2 counterexample: `X VARCHAR2(50,3)` is accepted by the column pattern
(the two-argument size specification is not restricted to NUMBER), and the
resulting column has both max_length and scale populated, with scale set
for a character-family type. -/
theorem claim_C2_counterexample :
    (parseColumns "  X VARCHAR2(50,3)".toList).map
      (fun c => (c.data_type, c.max_length, c.precision, c.scale))
      = [("VARCHAR2".toList, some 50, none, some 3)] := by
  decide

/-- C2 (amended): max_length and precision are never both populated: a
character-family type (VARCHAR2, CHAR, RAW) with a size argument yields
max_length set and precision unset, and NUMBER with size arguments yields
precision set and max_length unset; scale is populated exactly when the
declaration carries a second numeric argument, which the pattern also
accepts (and the code keeps) for character-family types. -/
theorem claim_C2_amended (m : ColMatch) (c : Column)
    (h : mkColumnFromMatch m = some c) :
    ¬(c.max_length.isSome = true ∧ c.precision.isSome = true)
    ∧ (m.csize.isSome = true → pyUpper m.ctype ∈ charLenTypes →
        c.max_length = m.csize.map digitsToNat ∧ c.precision = none)
    ∧ (m.csize.isSome = true → pyUpper m.ctype = "NUMBER".toList →
        c.precision = m.csize.map digitsToNat ∧ c.max_length = none)
    ∧ c.scale = m.cscale.map digitsToNat := by
  unfold mkColumnFromMatch at h
  split at h
  · exact absurd h (by simp)
  · rw [Option.some.injEq] at h
    subst h
    refine ⟨?_, ?_, ?_, rfl⟩
    · rintro ⟨h1, h2⟩
      by_cases hA : (m.csize.isSome && decide (pyUpper m.ctype ∈ charLenTypes)) = true
      · by_cases hB : (m.csize.isSome && decide (pyUpper m.ctype = "NUMBER".toList)) = true
        · rw [Bool.and_eq_true] at hA hB
          have h3 := of_decide_eq_true hA.2
          have h4 := of_decide_eq_true hB.2
          rw [h4] at h3
          exact absurd h3 (by decide)
        · simp only [if_neg hB, Option.isSome_none] at h2
          exact Bool.false_ne_true h2
      · simp only [if_neg hA, Option.isSome_none] at h1
        exact Bool.false_ne_true h1
    · intro hs hmem
      have hA : (m.csize.isSome && decide (pyUpper m.ctype ∈ charLenTypes)) = true := by
        rw [Bool.and_eq_true]
        exact ⟨hs, decide_eq_true hmem⟩
      have hB : ¬((m.csize.isSome && decide (pyUpper m.ctype = "NUMBER".toList)) = true) := by
        intro hcc
        rw [Bool.and_eq_true] at hcc
        have h4 := of_decide_eq_true hcc.2
        rw [h4] at hmem
        exact absurd hmem (by decide)
      constructor
      · simp only [if_pos hA]
      · simp only [if_neg hB]
    · intro hs hnum
      have hB : (m.csize.isSome && decide (pyUpper m.ctype = "NUMBER".toList)) = true := by
        rw [Bool.and_eq_true]
        exact ⟨hs, decide_eq_true hnum⟩
      have hA : ¬((m.csize.isSome && decide (pyUpper m.ctype ∈ charLenTypes)) = true) := by
        intro hcc
        rw [Bool.and_eq_true] at hcc
        have h3 := of_decide_eq_true hcc.2
        rw [hnum] at h3
        exact absurd h3 (by decide)
      constructor
      · simp only [if_pos hB]
      · simp only [if_neg hA]

/-- C2 witness: the amended claim instantiated on `N VARCHAR2(50)`. -/
theorem claim_C2_witness :
    ¬((({ name := "N".toList, data_type := "VARCHAR2".toList,
          max_length := some 50 } : Column).max_length.isSome = true)
      ∧ (({ name := "N".toList, data_type := "VARCHAR2".toList,
            max_length := some 50 } : Column).precision.isSome = true)) :=
  (claim_C2_amended
    { cname := "N".toList, ctype := "VARCHAR2".toList, csize := some "50".toList,
      crest := [] }
    { name := "N".toList, data_type := "VARCHAR2".toList, max_length := some 50 }
    (by decide)).1

/-- C8: extraction is total — `parse` is a function returning a
`SchemaModel` on every document (every sub-extractor in this embedding is
a total function; nothing raises), and on a document whose fragments match
no pattern the result simply carries empty entity lists rather than an
error. -/
theorem claim_C8_total :
    (∀ (now : Nat) (content : List Char), ∃ m : SchemaModel, parse now content = m)
    ∧ (parse 0 docMalformed).tables = []
    ∧ (parse 0 docMalformed).views = []
    ∧ (parse 0 docMalformed).procedures = [] := by
  refine ⟨fun now content => ⟨parse now content, rfl⟩, ?_, ?_, ?_⟩ <;> decide

/-- C3 counterexample: a foreign-key statement with two local columns and
one referenced column is accepted, and the resulting ForeignKey has
column lists of different lengths (2 and 1). -/
theorem claim_C3_counterexample :
    (dget (parseForeignKeys docFkMismatch) "CHILD".toList).map
      (fun l => l.map (fun fk => (fk.columns.length, fk.referenced_columns.length)))
      = some [(2, 1)] := by
  decide

/-- C3 (amended): each column list of an extracted ForeignKey has length
equal to one plus the number of commas in the corresponding captured
group; the two lists have equal length whenever the two groups carry the
same number of commas, but the extractor does not enforce this. -/
theorem claim_C3_amended (cname cols rt rcols : List Char) :
    (mkForeignKey cname cols rt rcols).columns.length = cols.count ',' + 1
    ∧ (mkForeignKey cname cols rt rcols).referenced_columns.length = rcols.count ',' + 1
    ∧ (cols.count ',' = rcols.count ',' →
        (mkForeignKey cname cols rt rcols).columns.length =
          (mkForeignKey cname cols rt rcols).referenced_columns.length) := by
  refine ⟨splitColsTrim_length cols, splitColsTrim_length rcols, ?_⟩
  intro h
  show (splitColsTrim cols).length = (splitColsTrim rcols).length
  rw [splitColsTrim_length, splitColsTrim_length, h]

/-- C3 witness: the amended claim instantiated on equal-arity lists. -/
theorem claim_C3_witness :
    (mkForeignKey "FK1".toList "A,B".toList "PARENT".toList "C,D".toList).columns.length =
      (mkForeignKey "FK1".toList "A,B".toList "PARENT".toList "C,D".toList).referenced_columns.length :=
  (claim_C3_amended "FK1".toList "A,B".toList "PARENT".toList "C,D".toList).2.2 (by decide)

theorem hasRefcursorOut_iff (ps : List ProcedureParameter) :
    hasRefcursorOut ps = true ↔
      ∃ p ∈ ps, (p.direction = "OUT".toList ∨ p.direction = "IN OUT".toList)
        ∧ isSubstr "REF".toList (pyUpper p.data_type) = true
        ∧ isSubstr "CURSOR".toList (pyUpper p.data_type) = true := by
  unfold hasRefcursorOut
  rw [List.any_eq_true]
  constructor
  · rintro ⟨p, hp, hcond⟩
    rw [Bool.and_eq_true, Bool.or_eq_true, Bool.and_eq_true] at hcond
    exact ⟨p, hp, by simpa using hcond.1, hcond.2.1, hcond.2.2⟩
  · rintro ⟨p, hp, hdir, href, hcur⟩
    refine ⟨p, hp, ?_⟩
    rw [Bool.and_eq_true, Bool.or_eq_true, Bool.and_eq_true]
    exact ⟨by simpa using hdir, href, hcur⟩

/-- C4: a procedure's has_refcursor_out is true iff at least one of its
parameters has direction OUT or IN OUT and a data_type containing both
REF and CURSOR after upper-casing; in particular it is false for an empty
parameter list and for an all-IN parameter list. -/
theorem claim_C4_refcursor (pname pkgname schname params_str : List Char) :
    ((mkProcedure pname pkgname schname params_str).has_refcursor_out = true ↔
      ∃ p ∈ (mkProcedure pname pkgname schname params_str).parameters,
        (p.direction = "OUT".toList ∨ p.direction = "IN OUT".toList)
        ∧ isSubstr "REF".toList (pyUpper p.data_type) = true
        ∧ isSubstr "CURSOR".toList (pyUpper p.data_type) = true)
    ∧ ((mkProcedure pname pkgname schname params_str).parameters = [] →
        (mkProcedure pname pkgname schname params_str).has_refcursor_out = false)
    ∧ ((∀ p ∈ (mkProcedure pname pkgname schname params_str).parameters,
          p.direction = "IN".toList) →
        (mkProcedure pname pkgname schname params_str).has_refcursor_out = false) := by
  refine ⟨hasRefcursorOut_iff (parseProcParams params_str), ?_, ?_⟩
  · intro h
    have h' : parseProcParams params_str = [] := h
    show hasRefcursorOut (parseProcParams params_str) = false
    rw [h']
    rfl
  · intro h
    show hasRefcursorOut (parseProcParams params_str) = false
    by_contra hc
    rw [Bool.not_eq_false] at hc
    obtain ⟨p, hp, hdir, -, -⟩ := (hasRefcursorOut_iff _).mp hc
    have hin : p.direction = "IN".toList := h p hp
    rcases hdir with h1 | h1 <;> rw [hin] at h1 <;> exact absurd h1 (by decide)

/-- C4 witness: the claim instantiated on an empty parameter list. -/
theorem claim_C4_witness :
    (mkProcedure "P".toList "K".toList "S".toList []).has_refcursor_out = false :=
  (claim_C4_refcursor "P".toList "K".toList "S".toList []).2.1 (by decide)

theorem pkfold_dget (ms : List (List Char × List Char × List Char))
    (d : List (List Char × PrimaryKey)) (k : List Char) :
    dget (ms.foldl (fun d m => dset d m.1 (mkPrimaryKey m.2.1 m.2.2)) d) k =
      (match (ms.filter (fun m => m.1 == k)).getLast? with
       | some m => some (mkPrimaryKey m.2.1 m.2.2)
       | none => dget d k) := by
  induction ms generalizing d with
  | nil => rfl
  | cons m ms ih =>
    rw [List.foldl_cons, ih, List.filter_cons]
    by_cases h : (m.1 == k) = true
    · rw [if_pos h]
      cases hf : ms.filter (fun m => m.1 == k) with
      | nil =>
        simp only [List.getLast?_nil, List.getLast?_singleton, dget_dset, if_pos h]
      | cons b r =>
        rw [List.getLast?_cons_cons]
        cases hg : (b :: r).getLast? with
        | some x => rfl
        | none => simp at hg
    · rw [if_neg h]
      cases hf : ms.filter (fun m => m.1 == k) with
      | nil =>
        simp only [List.getLast?_nil, dget_dset, if_neg h]
      | cons b r =>
        cases hg : (b :: r).getLast? with
        | some x => rfl
        | none => simp at hg

/-- C6: the primary-key extractor keeps at most one PrimaryKey per table
name, and it is the one built from the last matching statement in
document order. -/
theorem claim_C6_last_wins (content k : List Char) :
    dget (parsePrimaryKeys content) k = lastPkFor content k := by
  unfold parsePrimaryKeys lastPkFor
  rw [pkfold_dget]
  cases hg : ((pkMatches content).filter (fun m => m.1 == k)).getLast? with
  | some m => rfl
  | none => rfl

theorem fkfold_inv (ms : List (List Char × List Char × List Char × List Char × List Char))
    (d : List (List Char × List ForeignKey))
    (hd : ∀ k l, dget d k = some l →
      ∀ fk ∈ l, fk.columns ≠ [] ∧ fk.referenced_columns ≠ []) :
    ∀ k l,
      dget (ms.foldl
        (fun d m =>
          dset d m.1 (((dget d m.1).getD [])
            ++ [mkForeignKey m.2.1 m.2.2.1 m.2.2.2.1 m.2.2.2.2])) d) k = some l →
      ∀ fk ∈ l, fk.columns ≠ [] ∧ fk.referenced_columns ≠ [] := by
  induction ms generalizing d with
  | nil => exact hd
  | cons m ms ih =>
    rw [List.foldl_cons]
    apply ih
    intro k l hkl fk hfk
    rw [dget_dset] at hkl
    by_cases h : (m.1 == k) = true
    · rw [if_pos h, Option.some.injEq] at hkl
      subst hkl
      rcases List.mem_append.mp hfk with h1 | h1
      · cases hdm : dget d m.1 with
        | none => rw [hdm] at h1; simp at h1
        | some l0 =>
          rw [hdm] at h1
          exact hd m.1 l0 hdm fk h1
      · rw [List.mem_singleton] at h1
        subst h1
        exact ⟨splitColsTrim_ne_nil _, splitColsTrim_ne_nil _⟩
    · rw [if_neg h] at hkl
      exact hd k l hkl fk hfk

/-- C10: comma-splitting never yields an empty list — every PrimaryKey,
ForeignKey and View column list from a matched statement has at least one
element, and an empty parenthesized list yields a one-element list
containing the empty string. -/
theorem claim_C10_split_nonempty :
    (∀ s : List Char, 1 ≤ (splitColsTrim s).length)
    ∧ splitColsTrim [] = [[]]
    ∧ (∀ (content k : List Char) (pk : PrimaryKey),
        dget (parsePrimaryKeys content) k = some pk → pk.columns ≠ [])
    ∧ (∀ (content k : List Char) (l : List ForeignKey) (fk : ForeignKey),
        dget (parseForeignKeys content) k = some l → fk ∈ l →
        fk.columns ≠ [] ∧ fk.referenced_columns ≠ [])
    ∧ (∀ (content : List Char) (v : View), v ∈ parseViews content → v.columns ≠ [])
    ∧ dget (parsePrimaryKeys docEmptyParens) "T".toList =
        some { constraint_name := "PK_T".toList, columns := [[]] } := by
  refine ⟨?_, by decide, ?_, ?_, ?_, by decide⟩
  · intro s
    rw [splitColsTrim_length]
    exact Nat.succ_le_succ (Nat.zero_le _)
  · intro content k pk hpk
    unfold parsePrimaryKeys at hpk
    rw [pkfold_dget] at hpk
    cases hg : ((pkMatches content).filter (fun m => m.1 == k)).getLast? with
    | some m =>
      rw [hg, Option.some.injEq] at hpk
      subst hpk
      exact splitColsTrim_ne_nil _
    | none =>
      rw [hg] at hpk
      exact absurd hpk (by simp [dget])
  · intro content k l fk hkl hfk
    have h0 : ∀ k l, dget ([] : List (List Char × List ForeignKey)) k = some l →
        ∀ fk ∈ l, fk.columns ≠ [] ∧ fk.referenced_columns ≠ [] := by
      intro k l h
      exact absurd h (by simp [dget])
    exact fkfold_inv (fkMatches content) [] h0 k l hkl fk hfk
  · intro content v hv
    unfold parseViews at hv
    rw [List.mem_map] at hv
    obtain ⟨m, -, rfl⟩ := hv
    exact splitColsTrim_ne_nil _

/-- C10 witness: the primary-key component instantiated on the
empty-parenthesized-list document. -/
theorem claim_C10_witness :
    ({ constraint_name := "PK_T".toList, columns := [[]] } : PrimaryKey).columns ≠ [] :=
  claim_C10_split_nonempty.2.2.1 docEmptyParens "T".toList
    { constraint_name := "PK_T".toList, columns := [[]] } (by decide)

theorem parseTables_defaults (content : List Char) :
    ∀ t ∈ parseTables content, t.primary_key = none ∧ t.foreign_keys = [] := by
  intro t ht
  unfold parseTables at ht
  rw [List.mem_map] at ht
  obtain ⟨p, -, rfl⟩ := ht
  exact ⟨rfl, rfl⟩

/-- C9: the merge step keys comments, primary keys and foreign keys by
table name alone, so two extracted tables with the same name (possibly
under different schema qualifiers) always carry identical comment,
primary_key and foreign_keys after parsing. -/
theorem claim_C9_merge_by_name (now : Nat) (content : List Char) (t1 t2 : Table)
    (h1 : t1 ∈ (parse now content).tables) (h2 : t2 ∈ (parse now content).tables)
    (hname : t1.name = t2.name) :
    t1.comment = t2.comment ∧ t1.primary_key = t2.primary_key
      ∧ t1.foreign_keys = t2.foreign_keys := by
  have h1' : t1 ∈ (parseTables content).map
      (mergeTable (parseTableComments content) (parseColumnComments content)
        (parsePrimaryKeys content) (parseForeignKeys content)) := h1
  have h2' : t2 ∈ (parseTables content).map
      (mergeTable (parseTableComments content) (parseColumnComments content)
        (parsePrimaryKeys content) (parseForeignKeys content)) := h2
  rw [List.mem_map] at h1' h2'
  obtain ⟨u1, hu1, rfl⟩ := h1'
  obtain ⟨u2, hu2, rfl⟩ := h2'
  have hn : u1.name = u2.name := hname
  obtain ⟨hp1, hf1⟩ := parseTables_defaults content u1 hu1
  obtain ⟨hp2, hf2⟩ := parseTables_defaults content u2 hu2
  unfold mergeTable
  refine ⟨?_, ?_, ?_⟩
  · show dget (parseTableComments content) u1.name =
      dget (parseTableComments content) u2.name
    rw [hn]
  · show (match dget (parsePrimaryKeys content) u1.name with
      | some pk => some pk
      | none => u1.primary_key) =
      (match dget (parsePrimaryKeys content) u2.name with
      | some pk => some pk
      | none => u2.primary_key)
    rw [hn]
    cases dget (parsePrimaryKeys content) u2.name with
    | some pk => rfl
    | none => rw [hp1, hp2]
  · show (match dget (parseForeignKeys content) u1.name with
      | some l => l
      | none => u1.foreign_keys) =
      (match dget (parseForeignKeys content) u2.name with
      | some l => l
      | none => u2.foreign_keys)
    rw [hn]
    cases dget (parseForeignKeys content) u2.name with
    | some l => rfl
    | none => rw [hf1, hf2]

set_option maxRecDepth 200000 in
/-- C9 witness: the claim instantiated on a document with two tables named
`T` under schema qualifiers `A` and `B`. -/
theorem claim_C9_witness :
    tableC9A.comment = tableC9B.comment
      ∧ tableC9A.primary_key = tableC9B.primary_key
      ∧ tableC9A.foreign_keys = tableC9B.foreign_keys :=
  claim_C9_merge_by_name 0 docC9 tableC9A tableC9B (by decide) (by decide) (by decide)

set_option maxRecDepth 200000 in
/-- C1: on a document with default schema HR, a `Row Count: 42` hint within
200 characters before the block, one `CREATE TABLE EMP (ID NUMBER(10) NOT
NULL, NAME VARCHAR2(50))` block, a table comment, a primary key on ID and
no foreign keys, the extractor yields exactly one Table with the claimed
fields. -/
theorem claim_C1_end_to_end :
    (parse 0 docC1).tables =
      [{ name := "EMP".toList
         schema_name := "HR".toList
         row_count := 42
         columns :=
           [{ name := "ID".toList, data_type := "NUMBER".toList, nullable := false,
              precision := some 10 },
            { name := "NAME".toList, data_type := "VARCHAR2".toList, nullable := true,
              max_length := some 50 }]
         comment := some "Employees".toList
         primary_key := some { constraint_name := "PK_EMP".toList, columns := ["ID".toList] }
         foreign_keys := [] }] := by
  decide

end DatabaseInsight
